import Mathlib

/-!
Shallow embedding of the happy-sandwich-back order-management backend
(`app/models.py`, `app/schemas.py`, `app/crud.py`, `app/main.py`,
`app/notifier.py`) together with proofs about the embedded operations.

Strings are modelled as lists of characters (`Str`).  Python floats
(prices) are modelled as exact rationals; the claims under study never
depend on rounding.  Machine-level details that no claim touches
(e.g. the exact text of Python's `str(float)`) are abstracted as
parameters, with each abstraction noted at its definition.
-/

set_option linter.unusedVariables false
set_option linter.unnecessarySimpa false

/-- Strings of the embedded program: plain lists of characters. -/
abbrev Str := List Char

/-- Characters matched by the regex class `[a-zA-Z0-9]` used in
`crud._generate_unique_slug` (`app/crud.py`, line 200). -/
def isAsciiAlnum (c : Char) : Bool :=
  ('a' ≤ c && c ≤ 'z') || ('A' ≤ c && c ≤ 'Z') || ('0' ≤ c && c ≤ '9')

/-- Lowercase ASCII alphanumeric characters: the character set the spec
allows in generated slugs (besides the hyphen). -/
def isLowerAlnum (c : Char) : Bool :=
  ('a' ≤ c && c ≤ 'z') || ('0' ≤ c && c ≤ '9')

/-- Python's `str.lower` restricted to the ASCII case mapping: uppercase
ASCII letters are shifted to lowercase, every other character is kept.
(Non-ASCII case mappings are irrelevant here: every character the slug
generator keeps is ASCII alphanumeric.) -/
def pyLower (c : Char) : Char :=
  if 'A' ≤ c && c ≤ 'Z' then Char.ofNat (c.toNat + 32) else c

/-- Characters removed by Python's `str.strip()` with no argument
(ASCII whitespace). -/
def pyIsSpace (c : Char) : Bool :=
  c = ' ' || c = '\t' || c = '\n' || c = '\x0d' || c = '\x0b' || c = '\x0c'

/-- Strip characters satisfying `p` from the end of a list
(Python's `str.rstrip`): remove the longest suffix of characters
satisfying `p`. -/
def rstripP (p : Char → Bool) : Str → Str
  | [] => []
  | c :: cs =>
    if rstripP p cs = [] then (if p c then [] else [c])
    else c :: rstripP p cs

/-- Strip characters satisfying `p` from both ends of a list
(Python's `str.strip(chars)` / `str.strip()`). -/
def stripP (p : Char → Bool) (l : Str) : Str :=
  rstripP p (l.dropWhile p)

/-- The substitution `re.sub(r"[^a-zA-Z0-9]+", "-", _)` from
`crud._generate_unique_slug`: each maximal run of characters outside
`[a-zA-Z0-9]` is replaced by a single hyphen.  The boolean flag records
whether the previous character was part of such a run. -/
def subNonAlnumAux : Bool → Str → Str
  | _, [] => []
  | inRun, c :: cs =>
    if isAsciiAlnum c then c :: subNonAlnumAux false cs
    else if inRun then subNonAlnumAux true cs
    else '-' :: subNonAlnumAux true cs

/-- Replace every maximal run of non-alphanumeric characters by `-`. -/
def subNonAlnum (l : Str) : Str := subNonAlnumAux false l

/-- Decimal digit character for a value `< 10` (Python's rendering of
nonnegative integers, digit by digit). -/
def digitChar (d : Nat) : Char := Char.ofNat (48 + d)

/-- Decimal digits of a natural number, most significant first: the
embedding of Python's `f"{n}"` / `str(n)` for nonnegative `n`. -/
def natToDigits (n : Nat) : Str :=
  if h : n < 10 then [digitChar n]
  else natToDigits (n / 10) ++ [digitChar (n % 10)]
decreasing_by
  exact Nat.div_lt_self (Nat.lt_of_lt_of_le (by omega) (Nat.le_of_not_lt h)) (by omega)

/-- String form of a natural number. -/
def natToStr (n : Nat) : Str := natToDigits n

/-- Value of a digit string, used to show `natToDigits` is injective. -/
def digitsVal (l : Str) : Nat :=
  l.foldl (fun a c => 10 * a + (c.toNat - 48)) 0

/-- Left-pad the decimal form of `n` with zeros to width `w` (Python's
`%0*d`, as used by `datetime.isoformat`). -/
def padNat (w n : Nat) : Str :=
  List.replicate (w - (natToDigits n).length) '0' ++ natToDigits n

/- ### Dates and datetimes -/

/-- Calendar date (`datetime.date`): year, month, day. -/
structure Date where
  year : Nat
  month : Nat
  day : Nat
deriving DecidableEq, Repr

/-- Timestamp (`datetime.datetime`): date plus time-of-day fields. -/
structure DateTime where
  year : Nat
  month : Nat
  day : Nat
  hour : Nat
  minute : Nat
  second : Nat
  microsecond : Nat
deriving DecidableEq, Repr

/-- Field bounds of a valid `datetime.datetime` time-of-day part (the
date part's bounds are irrelevant to the properties proved here). -/
def DateTime.ValidTime (t : DateTime) : Prop :=
  t.hour ≤ 23 ∧ t.minute ≤ 59 ∧ t.second ≤ 59 ∧ t.microsecond ≤ 999999

instance (t : DateTime) : Decidable t.ValidTime := by
  unfold DateTime.ValidTime; infer_instance

/-- Python's `datetime.combine(d, time.min)`: midnight on day `d`. -/
def Date.startOfDay (d : Date) : DateTime :=
  ⟨d.year, d.month, d.day, 0, 0, 0, 0⟩

/-- Python's `datetime.combine(d, time.max)`: `23:59:59.999999` on day
`d`. -/
def Date.endOfDay (d : Date) : DateTime :=
  ⟨d.year, d.month, d.day, 23, 59, 59, 999999⟩

/-- Lexicographic comparison of datetimes, Python's `datetime.__le__`
on the field tuple. -/
def DateTime.leb (a b : DateTime) : Bool :=
  if a.year ≠ b.year then a.year < b.year
  else if a.month ≠ b.month then a.month < b.month
  else if a.day ≠ b.day then a.day < b.day
  else if a.hour ≠ b.hour then a.hour < b.hour
  else if a.minute ≠ b.minute then a.minute < b.minute
  else if a.second ≠ b.second then a.second < b.second
  else a.microsecond ≤ b.microsecond

/-- Lexicographic comparison of dates. -/
def Date.leb (a b : Date) : Bool :=
  if a.year ≠ b.year then a.year < b.year
  else if a.month ≠ b.month then a.month < b.month
  else a.day ≤ b.day

/-- Date part of a datetime (`datetime.date()`). -/
def DateTime.dateOf (t : DateTime) : Date := ⟨t.year, t.month, t.day⟩

/-- Python's `datetime.isoformat()`: `YYYY-MM-DDTHH:MM:SS`, with a
`.ffffff` fraction appended exactly when the microsecond field is
nonzero. -/
def DateTime.isoformat (t : DateTime) : Str :=
  padNat 4 t.year ++ ['-'] ++ padNat 2 t.month ++ ['-'] ++ padNat 2 t.day
    ++ ['T'] ++ padNat 2 t.hour ++ [':'] ++ padNat 2 t.minute ++ [':']
    ++ padNat 2 t.second
    ++ (if t.microsecond = 0 then [] else ['.'] ++ padNat 6 t.microsecond)

/- ### Domain model (`app/models.py`) -/

namespace App

/-- Persisted menu item (`models.MenuItem`).  `price`/`default_price`
floats are modelled as exact rationals. -/
structure MenuItem where
  id : Nat
  slug : Str
  name : Str
  default_price : ℚ
  priority : Nat
  is_active : Bool
  description : Option Str
  created_at : DateTime
  updated_at : DateTime
deriving DecidableEq, Repr

/-- Persisted order (`models.Order`).  `menu_item_id` holds the slug of
the referenced menu item. -/
structure Order where
  id : Nat
  customer_name : Str
  menu_item_id : Str
  menu_item_name : Str
  quantity : Nat
  price : ℚ
  note : Option Str
  order_date : DateTime
  is_paid : Bool
  created_at : DateTime
  updated_at : DateTime
deriving DecidableEq, Repr

/-- The persisted database state: the two tables plus the
autoincrement counters the store assigns primary keys from. -/
structure DBState where
  menuItems : List MenuItem
  orders : List Order
  nextMenuId : Nat
  nextOrderId : Nat
deriving DecidableEq, Repr

/- ### Slug generation (`app/crud.py`, `_generate_unique_slug`) -/

/-- The normalization step of `_generate_unique_slug` (`app/crud.py`
line 200-201): `re.sub(r"[^a-zA-Z0-9]+", "-", base.strip().lower()).strip("-")`
with the fallback `slug or "menu-item"`. -/
def slugNormalize (base : Str) : Str :=
  let s := stripP (fun c => c = '-') (subNonAlnum ((stripP pyIsSpace base).map pyLower))
  if s = [] then "menu-item".data else s

/-- Candidate tried by the collision loop at a given suffix: the bare
slug for suffix 1, `f"{slug}-{suffix}"` afterwards. -/
def slugCandidate (slug : Str) (suffix : Nat) : Str :=
  if suffix = 1 then slug else slug ++ ['-'] ++ natToStr suffix

/-- Lookup of `select(MenuItem).where(MenuItem.slug == candidate)`,
`.first()`: the first stored item carrying the candidate slug. -/
def findBySlug (items : List MenuItem) (cand : Str) : Option MenuItem :=
  items.find? (fun it => it.slug == cand)

/-- The collision loop of `_generate_unique_slug` (`app/crud.py` lines
202-210).  The loop body is unchanged; the extra fuel argument only
bounds the number of iterations, and `genSlugAux_isSome` below shows
the bound used by `generateUniqueSlug` is never reached. -/
def genSlugAux (items : List MenuItem) (currentId : Option Nat) (slug : Str) :
    Nat → Nat → Option Str
  | _, 0 => none
  | suffix, fuel + 1 =>
    let candidate := slugCandidate slug suffix
    match findBySlug items candidate with
    | none => some candidate
    | some existing =>
      if currentId = some existing.id then some candidate
      else genSlugAux items currentId slug (suffix + 1) fuel

/-- `crud._generate_unique_slug`.  The default `[]` of `getD` is dead
code: `generateUniqueSlug_eq_some` proves the loop always returns
within `items.length + 2` iterations. -/
def generateUniqueSlug (items : List MenuItem) (currentId : Option Nat)
    (base : Str) : Str :=
  (genSlugAux items currentId (slugNormalize base) 1 (items.length + 2)).getD []

/- ### Menu CRUD (`app/crud.py`) -/

/-- Payload of `crud.create_menu_item` : the dict produced by
`MenuItemCreate.model_dump(exclude_unset=True)` in the handler.
`name` and `default_price` are required fields of the schema, so they
are always present; an optional field is `none` when absent or
explicitly null (both read back as `None` through `dict.get`). -/
structure MenuCreateData where
  name : Str
  default_price : ℚ
  slug : Option Str := none
  is_active : Option Bool := none
  description : Option Str := none
deriving DecidableEq, Repr

/-- `crud.create_menu_item` (`app/crud.py` lines 137-153).  The store
assigns `nextMenuId` as the autoincrement primary key; `priority`
keeps its model default 100. -/
def create_menu_item (st : DBState) (now : DateTime) (data : MenuCreateData) :
    MenuItem × DBState :=
  let base := match data.slug with
    | some s => if s = [] then data.name else s
    | none => data.name
  let slug := generateUniqueSlug st.menuItems none base
  let item : MenuItem :=
    { id := st.nextMenuId, slug := slug, name := data.name,
      default_price := data.default_price, priority := 100,
      is_active := data.is_active.getD true, description := data.description,
      created_at := now, updated_at := now }
  (item, { st with menuItems := st.menuItems ++ [item],
                   nextMenuId := st.nextMenuId + 1 })

/-- Update dict for `crud.update_menu_item`, from
`MenuItemUpdate.model_dump(exclude_unset=True)`: the outer `Option` is
key presence (`exclude_unset`), the inner one an explicit JSON null
(skipped by the `value is None: continue` loop). -/
structure MenuUpdateData where
  name : Option (Option Str) := none
  slug : Option (Option Str) := none
  default_price : Option (Option ℚ) := none
  is_active : Option (Option Bool) := none
  description : Option (Option Str) := none
deriving DecidableEq, Repr

/-- Value the `setattr` loop of `crud.update_menu_item` leaves in a
field: the update's value when the key is present with a non-null
value, the old value otherwise. -/
def applyField {α : Type} (old : α) : Option (Option α) → α
  | some (some v) => v
  | _ => old

/-- `crud.update_menu_item` (`app/crud.py` lines 156-167): the slug is
regenerated (skipping the item's own id) only when the update carries
a truthy — present, non-null, non-empty — slug; then every present
non-null field is written onto the item. -/
def update_menu_item (st : DBState) (now : DateTime) (item : MenuItem)
    (upd : MenuUpdateData) : MenuItem × DBState :=
  let upd' := match upd.slug with
    | some (some s) =>
        if s = [] then upd
        else { upd with
               slug := some (some (generateUniqueSlug st.menuItems (some item.id) s)) }
    | _ => upd
  let item' : MenuItem :=
    { item with
      name := applyField item.name upd'.name,
      slug := applyField item.slug upd'.slug,
      default_price := applyField item.default_price upd'.default_price,
      is_active := applyField item.is_active upd'.is_active,
      description := match upd'.description with
        | some (some v) => some v
        | _ => item.description,
      updated_at := now }
  (item', { st with
            menuItems := st.menuItems.map fun it =>
              if it.id = item.id then item' else it })

/-- Error message raised by `crud.delete_menu_item` for a referenced
item. -/
def deleteInUseMsg : Str := "ไม่สามารถลบเมนูที่มีออเดอร์อยู่แล้วได้".data

/-- `crud.delete_menu_item` (`app/crud.py` lines 170-177): counts the
orders whose `menu_item_id` equals the item's slug; a nonzero count
raises `ValueError`, otherwise the row is deleted. -/
def delete_menu_item (st : DBState) (item : MenuItem) : Except Str DBState :=
  let in_use := st.orders.countP (fun o => o.menu_item_id == item.slug)
  if in_use ≠ 0 then .error deleteInUseMsg
  else .ok { st with menuItems := st.menuItems.filter (fun it => it.id != item.id) }

/-- Modelled from the spec: `DEFAULT_MENU_ITEMS` lives in
`app/menu_data.py`, which is not among the provided sources.  The spec
calls it "a fixed starter catalog" and its scenario seeds the menu
item with slug `pork-bun` and default price 35. -/
def DEFAULT_MENU_ITEMS : List (Str × Str × ℚ) :=
  [("pork-bun".data, "Pork Bun".data, 35)]

/-- Rows inserted by the seeding loop of
`crud.ensure_default_menu_items`, with autoincrement ids. -/
def seededItems (st : DBState) (now : DateTime) : List MenuItem :=
  DEFAULT_MENU_ITEMS.enum.map fun p =>
    { id := st.nextMenuId + p.1, slug := p.2.1, name := p.2.2.1,
      default_price := p.2.2.2, priority := 100, is_active := true,
      description := none, created_at := now, updated_at := now }

/-- `crud.ensure_default_menu_items` (`app/crud.py` lines 180-196):
returns immediately when the count of stored menu items is nonzero,
otherwise inserts the starter catalog. -/
def ensure_default_menu_items (st : DBState) (now : DateTime) : DBState :=
  if st.menuItems.length ≠ 0 then st
  else { st with menuItems := st.menuItems ++ seededItems st now,
                 nextMenuId := st.nextMenuId + DEFAULT_MENU_ITEMS.length }

/- ### Order CRUD (`app/crud.py`) and summary -/

/-- Payload of `POST /orders` after `OrderCreate.model_dump()`
(`app/schemas.py` lines 9-32): every field is present in the dict,
optional ones possibly as `None`; `quantity`, `price` and `is_paid`
carry their schema defaults when omitted by the client. -/
structure OrderCreatePayload where
  customer_name : Str
  menu_item_id : Str
  menu_item_name : Str
  quantity : Nat := 1
  price : ℚ := 0
  note : Option Str := none
  order_date : Option DateTime := none
  is_paid : Bool := false
deriving DecidableEq, Repr

/-- `crud.create_order` (`app/crud.py` lines 27-36): the row is built
from the dict, `order_date` falls back to `utcnow` (`now`), both
timestamps are set to `now`, and the store assigns the autoincrement
id. -/
def create_order (st : DBState) (now : DateTime) (d : OrderCreatePayload) :
    Order × DBState :=
  let order : Order :=
    { id := st.nextOrderId, customer_name := d.customer_name,
      menu_item_id := d.menu_item_id, menu_item_name := d.menu_item_name,
      quantity := d.quantity, price := d.price, note := d.note,
      order_date := d.order_date.getD now, is_paid := d.is_paid,
      created_at := now, updated_at := now }
  (order, { st with orders := st.orders ++ [order],
                    nextOrderId := st.nextOrderId + 1 })

/-- Lexicographic `≤` on character lists, the comparison behind the SQL
`ORDER BY menu_item_name`. -/
def strLeb : Str → Str → Bool
  | [], _ => true
  | _ :: _, [] => false
  | a :: as, b :: bs => if a = b then strLeb as bs else decide (a < b)

/-- Grouping key of the summary breakdown: `(menu_item_id,
menu_item_name)`, the `GROUP BY` columns of `crud.compute_summary`. -/
def summaryKeyOf (o : Order) : Str × Str := (o.menu_item_id, o.menu_item_name)

/-- Sort order of the breakdown: by menu item name. -/
def keyNameLe (a b : Str × Str) : Prop := strLeb a.2 b.2 = true

instance : DecidableRel keyNameLe := fun a b => by
  unfold keyNameLe; infer_instance

/-- One row of the summary breakdown (`schemas.MenuSummary`). -/
structure MenuSummaryRow where
  menu_item_id : Str
  menu_item_name : Str
  total_quantity : Nat
  unpaid_quantity : Nat
deriving DecidableEq, Repr

/-- Result shape of `crud.compute_summary` (`schemas.SummaryResponse`). -/
structure SummaryData where
  total_orders : Nat
  unpaid_orders : Nat
  total_quantity : Nat
  menu_breakdown : List MenuSummaryRow
deriving DecidableEq, Repr

/-- Breakdown row for one grouping key: coalesced sums of quantity and
of the `CASE WHEN NOT is_paid THEN quantity ELSE 0` expression. -/
def summaryRow (orders : List Order) (k : Str × Str) : MenuSummaryRow :=
  let group := orders.filter (fun o => summaryKeyOf o == k)
  { menu_item_id := k.1, menu_item_name := k.2,
    total_quantity := (group.map (fun o => o.quantity)).sum,
    unpaid_quantity := ((group.filter (fun o => !o.is_paid)).map
      (fun o => o.quantity)).sum }

/-- `crud.compute_summary` (`app/crud.py` lines 56-89): total count,
unpaid count, coalesced total quantity, and the per-key breakdown
grouped by `(menu_item_id, menu_item_name)` and ordered by name. -/
def compute_summary (st : DBState) : SummaryData :=
  let orders := st.orders
  let keys := ((orders.map summaryKeyOf).dedup).insertionSort keyNameLe
  { total_orders := orders.length,
    unpaid_orders := (orders.filter (fun o => !o.is_paid)).length,
    total_quantity := (orders.map (fun o => o.quantity)).sum,
    menu_breakdown := keys.map (summaryRow orders) }

/-- Sort order of `crud.list_orders`: `order_date` descending, ties by
`id` descending. -/
def ordersDesc (a b : Order) : Prop :=
  (if a.order_date = b.order_date then b.id ≤ a.id
   else DateTime.leb b.order_date a.order_date) = true

instance : DecidableRel ordersDesc := fun a b => by
  unfold ordersDesc; infer_instance

/-- `crud.list_orders` (`app/crud.py` lines 18-20). -/
def list_orders (st : DBState) : List Order :=
  st.orders.insertionSort ordersDesc

/-- Sort order of `crud.list_menu_items`: `id` ascending. -/
def menuIdAsc (a b : MenuItem) : Prop := a.id ≤ b.id

instance : DecidableRel menuIdAsc := fun a b => by
  unfold menuIdAsc; infer_instance

/-- `crud.list_menu_items` (`app/crud.py` lines 120-125). -/
def list_menu_items (st : DBState) (active_only : Bool) : List MenuItem :=
  (if active_only then st.menuItems.filter (fun it => it.is_active)
   else st.menuItems).insertionSort menuIdAsc

/- ### Notifier (`app/notifier.py`) -/

/-- Outcome of one outbound `httpx.post` + `raise_for_status` call:
`.error` is a raised transport exception.  A transport oracle maps each
call target (`some recipient` for a push, `none` for the broadcast) to
its outcome. -/
abbrev TransportOracle := Option Str → Except Str Unit

/-- `notifier._post_line` (`app/notifier.py` lines 15-25): the whole
request is wrapped in `try/except Exception`, so every transport error
is converted into a logged warning and nothing propagates — the return
type has no error channel. -/
def post_line (outcome : Except Str Unit) : List Str :=
  match outcome with
  | .ok _ => []
  | .error e => ["Failed to send LINE message: ".data ++ e]

/-- Messaging configuration used by the notifier (`app/config.py`). -/
structure NotifierSettings where
  line_channel_access_token : Option Str
  line_target_ids : List Str
deriving DecidableEq, Repr

/-- Modelled from the spec: `notify_new_order`, imported by
`app/main.py` line 16, is not defined in the provided sources (its
sibling `notify_order_event` is).  Per spec §4.4 the notifier returns
early without a configured token, sends an individual push to each
configured recipient identifier — one broadcast when none are
configured — and logs and swallows every transport error (the catch
lives in `post_line`, which is in the sources).  The returned list is
the warning log. -/
def notify_new_order (cfg : NotifierSettings) (transport : TransportOracle) :
    List Str :=
  match cfg.line_channel_access_token with
  | none => []
  | some _ =>
    if cfg.line_target_ids ≠ [] then
      (cfg.line_target_ids.map (fun r => post_line (transport (some r)))).flatten
    else post_line (transport none)

/- ### Request handlers (`app/main.py`) -/

/-- Client-facing error: HTTP status code and detail message. -/
abbrev ApiError := Nat × Str

/-- `main._resolve_menu_item` (`app/main.py` lines 274-280): a falsy
(empty) id and an unknown slug both map to a 400 error. -/
def resolve_menu_item (st : DBState) (menu_item_id : Str) :
    Except ApiError MenuItem :=
  if menu_item_id = [] then .error (400, "menu_item_id is required".data)
  else match findBySlug st.menuItems menu_item_id with
    | none => .error (400, "Invalid menu item".data)
    | some it => .ok it

/-- `main.create_order` (`app/main.py` lines 137-151): resolve the menu
item, denormalize its name, default a non-positive price to
`default_price * quantity` (the `price is None` disjunct is dead:
`model_dump()` always includes the field), persist, then notify.  The
final component of the result is the notifier's warning log. -/
def create_order_handler (st : DBState) (now : DateTime)
    (p : OrderCreatePayload) (cfg : NotifierSettings)
    (transport : TransportOracle) :
    Except ApiError (Order × DBState × List Str) :=
  match resolve_menu_item st p.menu_item_id with
  | .error e => .error e
  | .ok menu =>
    let d := { p with
      menu_item_name := menu.name,
      price := if p.price ≤ 0 then menu.default_price * (p.quantity : ℚ)
               else p.price }
    let (order, st') := create_order st now d
    let logs := notify_new_order cfg transport
    .ok (order, st', logs)

/-- `session.get(MenuItem, menu_item_id)`: primary-key lookup. -/
def getMenuItemById (st : DBState) (menu_item_id : Nat) : Option MenuItem :=
  st.menuItems.find? (fun it => it.id == menu_item_id)

/-- `main.delete_menu_item` (`app/main.py` lines 113-126): 404 when the
id is unknown, 400 when the repository raises `ValueError`, 204 on
success.  Returns the status code and the resulting state. -/
def delete_menu_item_handler (st : DBState) (menu_item_id : Nat) :
    Nat × DBState :=
  match getMenuItemById st menu_item_id with
  | none => (404, st)
  | some item =>
    match delete_menu_item st item with
    | .error _ => (400, st)
    | .ok st' => (204, st')

/-- Body of `POST /orders/mark-paid` (`schemas.PaymentBulkUpdate`,
modelled from its use in `app/main.py` lines 188-202: a start date, an
end date and the target paid flag). -/
structure PaymentBulkUpdate where
  start_date : Date
  end_date : Date
  is_paid : Bool
deriving DecidableEq, Repr

/-- Modelled from the spec: `crud.update_payment_status_by_date`,
called by `app/main.py` line 196, is not in the provided `crud.py`.
Per spec §4.3/§8 it sets the paid flag of every order whose
`order_date` lies in the given datetime range (inclusive) to the
target value, leaves the others untouched, and returns the count of
matching orders. -/
def update_payment_status_by_date (st : DBState) (start_dt end_dt : DateTime)
    (target : Bool) : Nat × DBState :=
  let hit := fun (o : Order) =>
    DateTime.leb start_dt o.order_date && DateTime.leb o.order_date end_dt
  (st.orders.countP hit,
   { st with orders := st.orders.map fun o =>
       if hit o then { o with is_paid := target } else o })

/-- `main.bulk_update_order_payment` (`app/main.py` lines 188-202):
normalizes the range to `[combine(start, time.min), combine(end,
time.max)]` and returns the updated count, the flag, and the new
state. -/
def bulk_update_order_payment (st : DBState) (p : PaymentBulkUpdate) :
    Nat × Bool × DBState :=
  let start_dt := p.start_date.startOfDay
  let end_dt := p.end_date.endOfDay
  let (updated, st') :=
    update_payment_status_by_date st start_dt end_dt p.is_paid
  (updated, p.is_paid, st')

/- ### Options endpoint (`app/main.py`, `app/schemas.py`) -/

/-- Response item of `GET /meta/options` (`schemas.MenuOption`,
`app/schemas.py` lines 52-55): the schema declares exactly `id`,
`name` and `default_price`. -/
structure MenuOption where
  id : Str
  name : Str
  default_price : ℚ
deriving DecidableEq, Repr

/-- The pydantic constructor call of `app/main.py` lines 63-68:
`MenuOption(id=…, name=…, default_price=…, priority=…)`.  `MenuOption`
does not declare `priority`, and pydantic's default configuration
(`extra="ignore"`) silently drops unknown constructor keywords — as
does the `response_model=OptionsResponse` filter — so the argument is
discarded. -/
def mkMenuOption (id name : Str) (default_price : ℚ) (priority : Nat) :
    MenuOption :=
  { id := id, name := name, default_price := default_price }

/-- Serialization keys of a `MenuOption` response item: pydantic emits
exactly the declared fields. -/
def menuOptionKeys : List Str := ["id".data, "name".data, "default_price".data]

/-- `main.get_options` (`app/main.py` lines 55-71): one option per
active menu item, with the slug as the public id. -/
def get_options (st : DBState) : List MenuOption :=
  (list_menu_items st true).map fun it =>
    mkMenuOption it.slug it.name it.default_price it.priority

/- ### CSV export (`app/main.py`, `export_orders`) -/

/-- Does a field need quoting under `csv.writer`'s default
`QUOTE_MINIMAL` dialect? -/
def csvNeedsQuote (s : Str) : Bool :=
  s.any (fun c => c = ',' || c = '"' || c = '\n' || c = '\x0d')

/-- Render one CSV field: quoted with doubled quote characters when
needed, verbatim otherwise. -/
def csvField (s : Str) : Str :=
  if csvNeedsQuote s then
    ['"'] ++ s.flatMap (fun c => if c = '"' then ['"', '"'] else [c]) ++ ['"']
  else s

/-- Render one CSV record: comma-separated fields. -/
def csvRecord (cells : List Str) : Str :=
  List.intercalate [','] (cells.map csvField)

/-- Render rows as `csv.writer` does: each record terminated by
`\r\n`. -/
def csvRender (rows : List (List Str)) : Str :=
  (rows.map (fun r => csvRecord r ++ ['\x0d', '\n'])).flatten

/-- The header record written by `main.export_orders` (`app/main.py`
lines 246-255). -/
def exportHeader : List Str :=
  ["id".data, "customer_name".data, "menu_item_name".data, "quantity".data,
   "price".data, "note".data, "order_date".data, "is_paid".data]

/-- The data record written for one order (`app/main.py` lines
256-266).  `priceRepr` abstracts Python's `str(float)` rendering of
the price cell, which no claim depends on; `order_date` is always set
on a persisted order, so the `if order.order_date else ""` guard takes
its first branch. -/
def orderRow (priceRepr : ℚ → Str) (o : Order) : List Str :=
  [natToStr o.id, o.customer_name, o.menu_item_name, natToStr o.quantity,
   priceRepr o.price, o.note.getD [], o.order_date.isoformat,
   if o.is_paid then "paid".data else "pending".data]

/-- The records `main.export_orders` writes: header first, then one
record per order of `crud.list_orders`. -/
def export_rows (priceRepr : ℚ → Str) (st : DBState) : List (List Str) :=
  exportHeader :: (list_orders st).map (orderRow priceRepr)

/-- `main.export_orders` (`app/main.py` lines 238-271): the CSV text
returned as the response body. -/
def export_orders (priceRepr : ℚ → Str) (st : DBState) : Str :=
  csvRender (export_rows priceRepr st)

end App

/- ### Predicates used by the stated properties -/

namespace App

/-- The spec's well-formedness of a slug: nonempty, only lowercase
ASCII alphanumerics and hyphens, and no leading or trailing hyphen. -/
def GoodSlug (s : Str) : Prop :=
  s ≠ [] ∧ (∀ c ∈ s, isLowerAlnum c = true ∨ c = '-')
    ∧ s.head? ≠ some '-' ∧ s.getLast? ≠ some '-'

/-- The slug-uniqueness invariant of the menu table. -/
def SlugsNodup (st : DBState) : Prop :=
  (st.menuItems.map (fun it => it.slug)).Nodup

/-- Distinctness of menu item primary keys, maintained by the store. -/
def IdsNodup (st : DBState) : Prop :=
  (st.menuItems.map (fun it => it.id)).Nodup

end App

/- ### Basic lemmas on the string machinery -/

theorem natToDigits_ne_nil (n : Nat) : natToDigits n ≠ [] := by
  unfold natToDigits
  split
  · simp
  · simp

theorem digitChar_bounds (d : Nat) (h : d < 10) :
    '0' ≤ digitChar d ∧ digitChar d ≤ '9' := by
  interval_cases d <;> exact ⟨by decide, by decide⟩

theorem mem_natToDigits_isDigit (n : Nat) :
    ∀ c ∈ natToDigits n, '0' ≤ c ∧ c ≤ '9' := by
  induction n using Nat.strong_induction_on with
  | _ n ih =>
    intro c hc
    unfold natToDigits at hc
    split at hc
    · rename_i h
      simp only [List.mem_singleton] at hc
      subst hc
      exact digitChar_bounds n h
    · rename_i h
      rw [List.mem_append] at hc
      rcases hc with hc | hc
      · exact ih (n / 10) (Nat.div_lt_self (by omega) (by omega)) c hc
      · simp only [List.mem_singleton] at hc
        subst hc
        exact digitChar_bounds (n % 10) (Nat.mod_lt _ (by omega))

theorem digitsVal_append (l : Str) (c : Char) :
    digitsVal (l ++ [c]) = 10 * digitsVal l + (c.toNat - 48) := by
  simp [digitsVal, List.foldl_append]

theorem digitChar_toNat (d : Nat) (h : d < 10) :
    (digitChar d).toNat = 48 + d := by
  interval_cases d <;> rfl

theorem digitsVal_natToDigits (n : Nat) : digitsVal (natToDigits n) = n := by
  induction n using Nat.strong_induction_on with
  | _ n ih =>
    unfold natToDigits
    split
    · rename_i h
      simp [digitsVal, digitChar_toNat n h]
    · rename_i h
      rw [digitsVal_append, ih (n / 10) (Nat.div_lt_self (by omega) (by omega)),
        digitChar_toNat (n % 10) (Nat.mod_lt _ (by omega))]
      omega

theorem natToDigits_injective : Function.Injective natToDigits := by
  intro a b h
  have := digitsVal_natToDigits a
  rw [h, digitsVal_natToDigits] at this
  omega

/- ### Claim theorems: seeding, order creation, options, deletion -/

namespace App

/-- C9: `ensure_default_menu_items` seeds the fixed starter catalog only
when no menu items exist, leaves any state with at least one menu item
unchanged, and is idempotent. -/
theorem ensure_default_seeds_only_when_empty (st : DBState)
    (now now2 : DateTime) :
    (st.menuItems = [] →
      ensure_default_menu_items st now
        = { st with menuItems := seededItems st now,
                    nextMenuId := st.nextMenuId + DEFAULT_MENU_ITEMS.length })
    ∧ (st.menuItems ≠ [] → ensure_default_menu_items st now = st)
    ∧ ensure_default_menu_items (ensure_default_menu_items st now) now2
        = ensure_default_menu_items st now := by
  have hseed : seededItems st now ≠ [] := by
    simp [seededItems, DEFAULT_MENU_ITEMS]
  refine ⟨?_, ?_, ?_⟩
  · intro h
    simp [ensure_default_menu_items, h]
  · intro h
    have : st.menuItems.length ≠ 0 := by
      simpa [List.length_eq_zero] using h
    simp [ensure_default_menu_items, this]
  · by_cases h : st.menuItems = []
    · have h1 : ensure_default_menu_items st now
          = { st with menuItems := seededItems st now,
                      nextMenuId := st.nextMenuId + DEFAULT_MENU_ITEMS.length } := by
        simp [ensure_default_menu_items, h]
      rw [h1]
      have : (seededItems st now).length ≠ 0 := by
        simpa [List.length_eq_zero] using hseed
      simp [ensure_default_menu_items, this]
    · have : st.menuItems.length ≠ 0 := by
        simpa [List.length_eq_zero] using h
      simp [ensure_default_menu_items, this]

/-- Witness for C9 at a concrete empty state. -/
theorem ensure_default_seeds_only_when_empty_witness :
    (⟨[], [], 1, 1⟩ : DBState).menuItems = []
    ∧ ensure_default_menu_items ⟨[], [], 1, 1⟩ ⟨2024, 1, 1, 0, 0, 0, 0⟩
      = { (⟨[], [], 1, 1⟩ : DBState) with
          menuItems := seededItems ⟨[], [], 1, 1⟩ ⟨2024, 1, 1, 0, 0, 0, 0⟩,
          nextMenuId := 1 + DEFAULT_MENU_ITEMS.length } :=
  ⟨rfl, (ensure_default_seeds_only_when_empty ⟨[], [], 1, 1⟩
    ⟨2024, 1, 1, 0, 0, 0, 0⟩ ⟨2024, 1, 1, 0, 0, 0, 0⟩).1 rfl⟩

/-- C7: when the referenced menu item resolves, the persisted order's
price is `default_price * quantity` when the supplied price is omitted
or non-positive (the schema default for an omitted price is 0), and the
supplied value verbatim when it is positive. -/
theorem create_order_price_defaulting
    (st : DBState) (now : DateTime) (p : OrderCreatePayload)
    (cfg : NotifierSettings) (transport : TransportOracle) (menu : MenuItem)
    (hres : resolve_menu_item st p.menu_item_id = Except.ok menu) :
    ∃ o st' logs,
      create_order_handler st now p cfg transport = Except.ok (o, st', logs)
      ∧ st'.orders = st.orders ++ [o]
      ∧ (p.price ≤ 0 → o.price = menu.default_price * (p.quantity : ℚ))
      ∧ (0 < p.price → o.price = p.price) := by
  unfold create_order_handler
  rw [hres]
  simp only [create_order]
  refine ⟨_, _, _, rfl, rfl, ?_, ?_⟩
  · intro h
    simp [h]
  · intro h
    simp [not_le.mpr h]

/-- Witness for C7: a state with one menu item, an order request with
price 0, default price 35 and quantity 2 giving price 70 (the spec's
scenario). -/
theorem create_order_price_defaulting_witness :
    (resolve_menu_item
        ⟨[⟨1, "pork-bun".data, "Pork Bun".data, 35, 100, true, none,
            ⟨2024, 1, 1, 0, 0, 0, 0⟩, ⟨2024, 1, 1, 0, 0, 0, 0⟩⟩], [], 2, 1⟩
        "pork-bun".data
      = Except.ok ⟨1, "pork-bun".data, "Pork Bun".data, 35, 100, true, none,
          ⟨2024, 1, 1, 0, 0, 0, 0⟩, ⟨2024, 1, 1, 0, 0, 0, 0⟩⟩)
    ∧ ∃ o st' logs,
        create_order_handler
          ⟨[⟨1, "pork-bun".data, "Pork Bun".data, 35, 100, true, none,
              ⟨2024, 1, 1, 0, 0, 0, 0⟩, ⟨2024, 1, 1, 0, 0, 0, 0⟩⟩], [], 2, 1⟩
          ⟨2024, 1, 2, 9, 30, 0, 0⟩
          { customer_name := "Ann".data, menu_item_id := "pork-bun".data,
            menu_item_name := "".data, quantity := 2 }
          ⟨none, []⟩ (fun _ => Except.ok ())
          = Except.ok (o, st', logs)
        ∧ st'.orders = [] ++ [o]
        ∧ ((0 : ℚ) ≤ 0 → o.price = 35 * (2 : ℚ))
        ∧ ((0 : ℚ) < 0 → o.price = 0) := by
  refine ⟨rfl, ?_⟩
  have h :=
    create_order_price_defaulting
      ⟨[⟨1, "pork-bun".data, "Pork Bun".data, 35, 100, true, none,
          ⟨2024, 1, 1, 0, 0, 0, 0⟩, ⟨2024, 1, 1, 0, 0, 0, 0⟩⟩], [], 2, 1⟩
      ⟨2024, 1, 2, 9, 30, 0, 0⟩
      { customer_name := "Ann".data, menu_item_id := "pork-bun".data,
        menu_item_name := "".data, quantity := 2 }
      ⟨none, []⟩ (fun _ => Except.ok ()) _ (by rfl)
  simpa using h

end App

namespace App

/-- C2: once the order persists, the handler's outcome is independent of
the notification transport: for every transport behaviour — including
failing ones — `create_order` succeeds with the same created order and
state, and the transport outcome shows up only in the warning log (the
`try/except` in `_post_line` swallows every delivery error). -/
theorem notification_failure_never_fails_create
    (st : DBState) (now : DateTime) (p : OrderCreatePayload)
    (cfg : NotifierSettings) (transport : TransportOracle) (menu : MenuItem)
    (hres : resolve_menu_item st p.menu_item_id = Except.ok menu) :
    create_order_handler st now p cfg transport
      = Except.ok
          ((create_order st now
              { p with
                menu_item_name := menu.name,
                price := if p.price ≤ 0 then menu.default_price * (p.quantity : ℚ)
                         else p.price }).1,
           (create_order st now
              { p with
                menu_item_name := menu.name,
                price := if p.price ≤ 0 then menu.default_price * (p.quantity : ℚ)
                         else p.price }).2,
           notify_new_order cfg transport) := by
  unfold create_order_handler
  rw [hres]

/-- Witness for C2 at a concrete state, with a transport that fails
every delivery. -/
theorem notification_failure_never_fails_create_witness :
    (resolve_menu_item
        ⟨[⟨1, "pork-bun".data, "Pork Bun".data, 35, 100, true, none,
            ⟨2024, 1, 1, 0, 0, 0, 0⟩, ⟨2024, 1, 1, 0, 0, 0, 0⟩⟩], [], 2, 1⟩
        ({ customer_name := "Ann".data, menu_item_id := "pork-bun".data,
           menu_item_name := "".data, quantity := 2 } : OrderCreatePayload).menu_item_id
      = Except.ok ⟨1, "pork-bun".data, "Pork Bun".data, 35, 100, true, none,
          ⟨2024, 1, 1, 0, 0, 0, 0⟩, ⟨2024, 1, 1, 0, 0, 0, 0⟩⟩)
    ∧ create_order_handler
        ⟨[⟨1, "pork-bun".data, "Pork Bun".data, 35, 100, true, none,
            ⟨2024, 1, 1, 0, 0, 0, 0⟩, ⟨2024, 1, 1, 0, 0, 0, 0⟩⟩], [], 2, 1⟩
        ⟨2024, 1, 2, 9, 30, 0, 0⟩
        { customer_name := "Ann".data, menu_item_id := "pork-bun".data,
          menu_item_name := "".data, quantity := 2 }
        ⟨some "token".data, []⟩ (fun _ => Except.error "connection refused".data)
      = Except.ok
          ((create_order
              ⟨[⟨1, "pork-bun".data, "Pork Bun".data, 35, 100, true, none,
                  ⟨2024, 1, 1, 0, 0, 0, 0⟩, ⟨2024, 1, 1, 0, 0, 0, 0⟩⟩], [], 2, 1⟩
              ⟨2024, 1, 2, 9, 30, 0, 0⟩
              { ({ customer_name := "Ann".data, menu_item_id := "pork-bun".data,
                   menu_item_name := "".data, quantity := 2 } : OrderCreatePayload) with
                menu_item_name := "Pork Bun".data,
                price := if ({ customer_name := "Ann".data,
                               menu_item_id := "pork-bun".data,
                               menu_item_name := "".data,
                               quantity := 2 } : OrderCreatePayload).price ≤ 0
                         then 35 * ((2 : Nat) : ℚ) else 0 }).1,
           (create_order
              ⟨[⟨1, "pork-bun".data, "Pork Bun".data, 35, 100, true, none,
                  ⟨2024, 1, 1, 0, 0, 0, 0⟩, ⟨2024, 1, 1, 0, 0, 0, 0⟩⟩], [], 2, 1⟩
              ⟨2024, 1, 2, 9, 30, 0, 0⟩
              { ({ customer_name := "Ann".data, menu_item_id := "pork-bun".data,
                   menu_item_name := "".data, quantity := 2 } : OrderCreatePayload) with
                menu_item_name := "Pork Bun".data,
                price := if ({ customer_name := "Ann".data,
                               menu_item_id := "pork-bun".data,
                               menu_item_name := "".data,
                               quantity := 2 } : OrderCreatePayload).price ≤ 0
                         then 35 * ((2 : Nat) : ℚ) else 0 }).2,
           notify_new_order ⟨some "token".data, []⟩
             (fun _ => Except.error "connection refused".data)) := by
  refine ⟨rfl, ?_⟩
  have h :=
    notification_failure_never_fails_create
      ⟨[⟨1, "pork-bun".data, "Pork Bun".data, 35, 100, true, none,
          ⟨2024, 1, 1, 0, 0, 0, 0⟩, ⟨2024, 1, 1, 0, 0, 0, 0⟩⟩], [], 2, 1⟩
      ⟨2024, 1, 2, 9, 30, 0, 0⟩
      { customer_name := "Ann".data, menu_item_id := "pork-bun".data,
        menu_item_name := "".data, quantity := 2 }
      ⟨some "token".data, []⟩ (fun _ => Except.error "connection refused".data)
      ⟨1, "pork-bun".data, "Pork Bun".data, 35, 100, true, none,
        ⟨2024, 1, 1, 0, 0, 0, 0⟩, ⟨2024, 1, 1, 0, 0, 0, 0⟩⟩ (by rfl)
  exact h

/-- C10 counterexample: the `GET /meta/options` response item does not
contain a `priority` field — `schemas.MenuOption` declares only `id`,
`name` and `default_price`, so the `priority` keyword the handler
passes is dropped.  Shown at a concrete state with one active item of
priority 7. -/
theorem options_priority_dropped_cex :
    get_options
        ⟨[⟨1, "pork-bun".data, "Pork Bun".data, 35, 7, true, none,
            ⟨2024, 1, 1, 0, 0, 0, 0⟩, ⟨2024, 1, 1, 0, 0, 0, 0⟩⟩], [], 2, 1⟩
      = [⟨"pork-bun".data, "Pork Bun".data, 35⟩]
    ∧ "priority".data ∉ menuOptionKeys := by
  exact ⟨rfl, by decide⟩

/-- C10 amended: the options response contains one item per active menu
item carrying exactly the declared fields `id` (the slug), `name` and
`default_price`; the `priority` argument passed by the handler is not
part of the response. -/
theorem options_fields (st : DBState) :
    get_options st
      = (list_menu_items st true).map
          (fun it => { id := it.slug, name := it.name,
                       default_price := it.default_price })
    ∧ "priority".data ∉ menuOptionKeys := by
  exact ⟨rfl, by decide⟩

/-- C5: deleting a menu item referenced by at least one order fails with
the domain `ValueError` (translated by the handler to a 400, distinct
from the 404 not-found signal) and leaves the state unchanged; deleting
an unreferenced item succeeds with a 204, removes exactly that item and
leaves the orders unchanged. -/
theorem delete_menu_item_referenced_spec
    (st : DBState) (mid : Nat) (item : MenuItem)
    (hfound : getMenuItemById st mid = some item) :
    ((∃ o ∈ st.orders, o.menu_item_id = item.slug) →
        delete_menu_item st item = Except.error deleteInUseMsg
        ∧ delete_menu_item_handler st mid = (400, st))
    ∧ ((∀ o ∈ st.orders, o.menu_item_id ≠ item.slug) →
        delete_menu_item st item
          = Except.ok { st with
              menuItems := st.menuItems.filter (fun it => it.id != item.id) }
        ∧ delete_menu_item_handler st mid
          = (204, { st with
              menuItems := st.menuItems.filter (fun it => it.id != item.id) })) := by
  constructor
  · intro h
    obtain ⟨o, ho, hslug⟩ := h
    have hcnt : st.orders.countP (fun o => o.menu_item_id == item.slug) ≠ 0 := by
      intro hz
      rw [List.countP_eq_zero] at hz
      exact hz o ho (by simpa using hslug)
    have hdel : delete_menu_item st item = Except.error deleteInUseMsg := by
      simp [delete_menu_item, hcnt]
    refine ⟨hdel, ?_⟩
    simp [delete_menu_item_handler, hfound, hdel]
  · intro h
    have hcnt : st.orders.countP (fun o => o.menu_item_id == item.slug) = 0 := by
      rw [List.countP_eq_zero]
      intro o ho
      simpa using h o ho
    have hdel : delete_menu_item st item
        = Except.ok { st with
            menuItems := st.menuItems.filter (fun it => it.id != item.id) } := by
      simp [delete_menu_item, hcnt]
    refine ⟨hdel, ?_⟩
    simp [delete_menu_item_handler, hfound, hdel]

/-- Witness for C5: a state whose only order references the single menu
item, so deletion is refused with a 400 and nothing changes. -/
theorem delete_menu_item_referenced_spec_witness :
    (getMenuItemById
        ⟨[⟨1, "pork-bun".data, "Pork Bun".data, 35, 100, true, none,
            ⟨2024, 1, 1, 0, 0, 0, 0⟩, ⟨2024, 1, 1, 0, 0, 0, 0⟩⟩],
          [⟨1, "Ann".data, "pork-bun".data, "Pork Bun".data, 2, 70, none,
            ⟨2024, 1, 2, 9, 0, 0, 0⟩, false,
            ⟨2024, 1, 2, 9, 0, 0, 0⟩, ⟨2024, 1, 2, 9, 0, 0, 0⟩⟩], 2, 2⟩ 1
      = some ⟨1, "pork-bun".data, "Pork Bun".data, 35, 100, true, none,
          ⟨2024, 1, 1, 0, 0, 0, 0⟩, ⟨2024, 1, 1, 0, 0, 0, 0⟩⟩)
    ∧ delete_menu_item
        ⟨[⟨1, "pork-bun".data, "Pork Bun".data, 35, 100, true, none,
            ⟨2024, 1, 1, 0, 0, 0, 0⟩, ⟨2024, 1, 1, 0, 0, 0, 0⟩⟩],
          [⟨1, "Ann".data, "pork-bun".data, "Pork Bun".data, 2, 70, none,
            ⟨2024, 1, 2, 9, 0, 0, 0⟩, false,
            ⟨2024, 1, 2, 9, 0, 0, 0⟩, ⟨2024, 1, 2, 9, 0, 0, 0⟩⟩], 2, 2⟩
        ⟨1, "pork-bun".data, "Pork Bun".data, 35, 100, true, none,
          ⟨2024, 1, 1, 0, 0, 0, 0⟩, ⟨2024, 1, 1, 0, 0, 0, 0⟩⟩
      = Except.error deleteInUseMsg
    ∧ delete_menu_item_handler
        ⟨[⟨1, "pork-bun".data, "Pork Bun".data, 35, 100, true, none,
            ⟨2024, 1, 1, 0, 0, 0, 0⟩, ⟨2024, 1, 1, 0, 0, 0, 0⟩⟩],
          [⟨1, "Ann".data, "pork-bun".data, "Pork Bun".data, 2, 70, none,
            ⟨2024, 1, 2, 9, 0, 0, 0⟩, false,
            ⟨2024, 1, 2, 9, 0, 0, 0⟩, ⟨2024, 1, 2, 9, 0, 0, 0⟩⟩], 2, 2⟩ 1
      = (400,
         ⟨[⟨1, "pork-bun".data, "Pork Bun".data, 35, 100, true, none,
             ⟨2024, 1, 1, 0, 0, 0, 0⟩, ⟨2024, 1, 1, 0, 0, 0, 0⟩⟩],
           [⟨1, "Ann".data, "pork-bun".data, "Pork Bun".data, 2, 70, none,
             ⟨2024, 1, 2, 9, 0, 0, 0⟩, false,
             ⟨2024, 1, 2, 9, 0, 0, 0⟩, ⟨2024, 1, 2, 9, 0, 0, 0⟩⟩], 2, 2⟩) := by
  refine ⟨rfl, ?_⟩
  have h :=
    (delete_menu_item_referenced_spec
      ⟨[⟨1, "pork-bun".data, "Pork Bun".data, 35, 100, true, none,
          ⟨2024, 1, 1, 0, 0, 0, 0⟩, ⟨2024, 1, 1, 0, 0, 0, 0⟩⟩],
        [⟨1, "Ann".data, "pork-bun".data, "Pork Bun".data, 2, 70, none,
          ⟨2024, 1, 2, 9, 0, 0, 0⟩, false,
          ⟨2024, 1, 2, 9, 0, 0, 0⟩, ⟨2024, 1, 2, 9, 0, 0, 0⟩⟩], 2, 2⟩ 1
      ⟨1, "pork-bun".data, "Pork Bun".data, 35, 100, true, none,
        ⟨2024, 1, 1, 0, 0, 0, 0⟩, ⟨2024, 1, 1, 0, 0, 0, 0⟩⟩ (by rfl)).1
      (by exact ⟨_, List.mem_singleton_self _, rfl⟩)
  exact h

end App

namespace App

/-- Splitting a quantity sum along a boolean predicate. -/
theorem sum_qty_filter_partition (orders : List Order) (p : Order → Bool) :
    ((orders.filter p).map (fun o => o.quantity)).sum
      + ((orders.filter (fun o => !p o)).map (fun o => o.quantity)).sum
      = (orders.map (fun o => o.quantity)).sum := by
  induction orders with
  | nil => simp
  | cons o os ih =>
    by_cases h : p o <;> simp [h] <;> omega

/-- Summing the per-group quantity sums over a duplicate-free list of
keys covering all orders gives the total quantity. -/
theorem grouped_sum (ks : List (Str × Str)) (orders : List Order)
    (hnd : ks.Nodup) (hcov : ∀ o ∈ orders, summaryKeyOf o ∈ ks) :
    (ks.map (fun k => ((orders.filter (fun o => summaryKeyOf o == k)).map
        (fun o => o.quantity)).sum)).sum
      = (orders.map (fun o => o.quantity)).sum := by
  induction ks generalizing orders with
  | nil =>
    have : orders = [] := by
      apply List.eq_nil_iff_forall_not_mem.mpr
      intro o ho
      exact absurd (hcov o ho) (List.not_mem_nil _)
    subst this
    simp
  | cons k ks ih =>
    have hk : k ∉ ks := (List.nodup_cons.mp hnd).1
    have hnd' : ks.Nodup := (List.nodup_cons.mp hnd).2
    have hmaps : ∀ k' ∈ ks,
        orders.filter (fun o => summaryKeyOf o == k')
          = (orders.filter (fun o => !(summaryKeyOf o == k))).filter
              (fun o => summaryKeyOf o == k') := by
      intro k' hk'
      rw [List.filter_filter]
      apply List.filter_congr
      intro o ho
      have hkk' : k' ≠ k := fun e => hk (e ▸ hk')
      by_cases h : summaryKeyOf o = k'
      · simp [h, hkk']
      · simp [h]
    have hrw : ks.map (fun k' => ((orders.filter (fun o => summaryKeyOf o == k')).map
          (fun o => o.quantity)).sum)
        = ks.map (fun k' =>
            (((orders.filter (fun o => !(summaryKeyOf o == k))).filter
                (fun o => summaryKeyOf o == k')).map (fun o => o.quantity)).sum) := by
      apply List.map_congr_left
      intro k' hk'
      rw [hmaps k' hk']
    have hcov' : ∀ o ∈ orders.filter (fun o => !(summaryKeyOf o == k)),
        summaryKeyOf o ∈ ks := by
      intro o ho
      have hmem := List.mem_of_mem_filter ho
      have hne : ¬(summaryKeyOf o == k) = true := by
        have := List.of_mem_filter ho
        simpa using this
      have := hcov o hmem
      rcases List.mem_cons.mp this with h | h
      · exact absurd (by simpa using h) hne
      · exact h
    rw [List.map_cons, List.sum_cons, hrw,
      ih (orders.filter (fun o => !(summaryKeyOf o == k))) hnd' hcov']
    exact sum_qty_filter_partition orders (fun o => summaryKeyOf o == k)

/-- C6: `compute_summary` on an empty order set returns zero counts and
an empty breakdown, and on every order set the total quantity equals
the sum of the breakdown rows' total quantities. -/
theorem compute_summary_totals (st : DBState) :
    (st.orders = [] →
      compute_summary st
        = { total_orders := 0, unpaid_orders := 0, total_quantity := 0,
            menu_breakdown := [] })
    ∧ (compute_summary st).total_quantity
        = ((compute_summary st).menu_breakdown.map
            (fun r => r.total_quantity)).sum := by
  constructor
  · intro h
    simp [compute_summary, h]
  · show (st.orders.map (fun o => o.quantity)).sum
      = ((((st.orders.map summaryKeyOf).dedup.insertionSort keyNameLe).map
            (summaryRow st.orders)).map (fun r => r.total_quantity)).sum
    rw [List.map_map]
    have hrow : ((fun r : MenuSummaryRow => r.total_quantity) ∘ summaryRow st.orders)
        = fun k => ((st.orders.filter (fun o => summaryKeyOf o == k)).map
            (fun o => o.quantity)).sum := rfl
    rw [hrow]
    have hperm :=
      (List.perm_insertionSort keyNameLe ((st.orders.map summaryKeyOf).dedup)).map
        (fun k => ((st.orders.filter (fun o => summaryKeyOf o == k)).map
            (fun o => o.quantity)).sum)
    rw [hperm.sum_eq]
    exact (grouped_sum _ _ (List.nodup_dedup _)
      (fun o ho => List.mem_dedup.mpr (List.mem_map_of_mem _ ho))).symm

/-- Witness for C6 at a concrete empty state. -/
theorem compute_summary_totals_witness :
    (⟨[], [], 1, 1⟩ : DBState).orders = []
    ∧ compute_summary ⟨[], [], 1, 1⟩
      = { total_orders := 0, unpaid_orders := 0, total_quantity := 0,
          menu_breakdown := [] } :=
  ⟨rfl, (compute_summary_totals ⟨[], [], 1, 1⟩).1 rfl⟩

end App

/-- Comparing against start-of-day at datetime precision is comparing
dates: midnight is the least time of the day. -/
theorem leb_startOfDay (d : Date) (t : DateTime) :
    DateTime.leb d.startOfDay t = Date.leb d t.dateOf := by
  simp only [DateTime.leb, Date.leb, Date.startOfDay, DateTime.dateOf]
  split_ifs <;> (try rfl) <;> rw [decide_eq_decide] <;> omega

/-- Comparing against end-of-day at datetime precision is comparing
dates, provided the time fields are in range: `23:59:59.999999` is the
greatest valid time of the day. -/
theorem leb_endOfDay (d : Date) (t : DateTime) (h : t.ValidTime) :
    DateTime.leb t d.endOfDay = Date.leb t.dateOf d := by
  obtain ⟨h1, h2, h3, h4⟩ := h
  simp only [DateTime.leb, Date.leb, Date.endOfDay, DateTime.dateOf]
  split_ifs <;> (try rfl) <;> rw [decide_eq_decide] <;> omega

namespace App

/-- C1: `POST /orders/mark-paid` sets the paid flag to the target value
on exactly the orders whose `order_date` lies in
`[start-of-day(start_date), end-of-day(end_date)]` — equivalently, for
valid timestamps, whose calendar date lies in the inclusive range
`[start_date, end_date]` — leaves every other order (and the menu
table) unchanged, and returns the count of matching orders together
with the flag. -/
theorem bulk_mark_paid_spec (st : DBState) (p : PaymentBulkUpdate)
    (hvalid : ∀ o ∈ st.orders, o.order_date.ValidTime) :
    (bulk_update_order_payment st p).2.1 = p.is_paid
    ∧ (bulk_update_order_payment st p).2.2.orders
        = st.orders.map (fun o =>
            if DateTime.leb p.start_date.startOfDay o.order_date
                && DateTime.leb o.order_date p.end_date.endOfDay
            then { o with is_paid := p.is_paid } else o)
    ∧ (bulk_update_order_payment st p).1
        = (st.orders.filter (fun o =>
            DateTime.leb p.start_date.startOfDay o.order_date
              && DateTime.leb o.order_date p.end_date.endOfDay)).length
    ∧ (∀ o ∈ st.orders,
        (DateTime.leb p.start_date.startOfDay o.order_date
          && DateTime.leb o.order_date p.end_date.endOfDay)
          = (Date.leb p.start_date o.order_date.dateOf
              && Date.leb o.order_date.dateOf p.end_date))
    ∧ (bulk_update_order_payment st p).2.2.menuItems = st.menuItems := by
  refine ⟨rfl, rfl, ?_, ?_, rfl⟩
  · show st.orders.countP _ = _
    rw [List.countP_eq_length_filter]
  · intro o ho
    rw [leb_startOfDay, leb_endOfDay _ _ (hvalid o ho)]

/-- Witness for C1: one order on 2024-01-15 marked paid by the range
2024-01-01 .. 2024-01-31. -/
theorem bulk_mark_paid_spec_witness :
    (∀ o ∈ (⟨[], [⟨1, "Ann".data, "pork-bun".data, "Pork Bun".data, 2, 70,
        none, ⟨2024, 1, 15, 9, 0, 0, 0⟩, false,
        ⟨2024, 1, 15, 9, 0, 0, 0⟩, ⟨2024, 1, 15, 9, 0, 0, 0⟩⟩], 1, 2⟩
        : DBState).orders, o.order_date.ValidTime)
    ∧ ((bulk_update_order_payment
          ⟨[], [⟨1, "Ann".data, "pork-bun".data, "Pork Bun".data, 2, 70,
            none, ⟨2024, 1, 15, 9, 0, 0, 0⟩, false,
            ⟨2024, 1, 15, 9, 0, 0, 0⟩, ⟨2024, 1, 15, 9, 0, 0, 0⟩⟩], 1, 2⟩
          ⟨⟨2024, 1, 1⟩, ⟨2024, 1, 31⟩, true⟩).1 = 1
       ∧ (bulk_update_order_payment
          ⟨[], [⟨1, "Ann".data, "pork-bun".data, "Pork Bun".data, 2, 70,
            none, ⟨2024, 1, 15, 9, 0, 0, 0⟩, false,
            ⟨2024, 1, 15, 9, 0, 0, 0⟩, ⟨2024, 1, 15, 9, 0, 0, 0⟩⟩], 1, 2⟩
          ⟨⟨2024, 1, 1⟩, ⟨2024, 1, 31⟩, true⟩).2.1 = true) := by
  refine ⟨by decide, by decide, ?_⟩
  exact (bulk_mark_paid_spec
    ⟨[], [⟨1, "Ann".data, "pork-bun".data, "Pork Bun".data, 2, 70,
      none, ⟨2024, 1, 15, 9, 0, 0, 0⟩, false,
      ⟨2024, 1, 15, 9, 0, 0, 0⟩, ⟨2024, 1, 15, 9, 0, 0, 0⟩⟩], 1, 2⟩
    ⟨⟨2024, 1, 1⟩, ⟨2024, 1, 31⟩, true⟩ (by decide)).1

end App

namespace App

/-- C8: the export consists of the fixed header record followed by
exactly one data record per order; each data record renders the paid
flag as `paid`/`pending` and the order date in ISO date-time text, and
the response body is the CSV rendering of those records. -/
theorem export_csv_shape (priceRepr : ℚ → Str) (st : DBState) :
    export_rows priceRepr st
      = exportHeader :: (list_orders st).map (orderRow priceRepr)
    ∧ (list_orders st).Perm st.orders
    ∧ (export_rows priceRepr st).length = st.orders.length + 1
    ∧ csvRecord exportHeader
        = "id,customer_name,menu_item_name,quantity,price,note,order_date,is_paid".data
    ∧ (∀ o : Order,
        (orderRow priceRepr o).length = 8
        ∧ (orderRow priceRepr o)[7]?
            = some (if o.is_paid then "paid".data else "pending".data)
        ∧ (orderRow priceRepr o)[6]? = some o.order_date.isoformat)
    ∧ export_orders priceRepr st = csvRender (export_rows priceRepr st) := by
  refine ⟨rfl, ?_, ?_, ?_, ?_, rfl⟩
  · exact List.perm_insertionSort ordersDesc st.orders
  · show (exportHeader :: (list_orders st).map (orderRow priceRepr)).length = _
    rw [List.length_cons, List.length_map, list_orders,
      (List.perm_insertionSort ordersDesc st.orders).length_eq]
  · decide
  · intro o
    exact ⟨rfl, rfl, rfl⟩

end App

/- ### Character and strip lemmas for the slug property -/

theorem toNat_ofNat_valid (n : Nat) (h : n < 55296) :
    (Char.ofNat n).toNat = n := by
  unfold Char.ofNat
  split
  · rfl
  · rename_i hv
    exact absurd (Or.inl h) hv

theorem charLe_iff (a b : Char) : (a ≤ b) ↔ a.toNat ≤ b.toNat := Iff.rfl

theorem pyLower_alnum (c : Char)
    (h : isAsciiAlnum (pyLower c) = true) : isLowerAlnum (pyLower c) = true := by
  unfold pyLower at h ⊢
  by_cases hu : ('A' ≤ c && c ≤ 'Z') = true
  · rw [if_pos hu] at h ⊢
    rcases Bool.and_eq_true .. |>.mp hu with ⟨h1, h2⟩
    have h65 : 65 ≤ c.toNat := (charLe_iff _ _).mp (of_decide_eq_true h1)
    have h90 : c.toNat ≤ 90 := (charLe_iff _ _).mp (of_decide_eq_true h2)
    have hv : (Char.ofNat (c.toNat + 32)).toNat = c.toNat + 32 :=
      toNat_ofNat_valid _ (by omega)
    simp only [isLowerAlnum, Bool.or_eq_true, Bool.and_eq_true, decide_eq_true_eq]
    refine Or.inl ⟨?_, ?_⟩
    · rw [charLe_iff, hv]
      show 97 ≤ c.toNat + 32
      omega
    · rw [charLe_iff, hv]
      show c.toNat + 32 ≤ 122
      omega
  · rw [if_neg hu] at h ⊢
    simp only [isAsciiAlnum, Bool.or_eq_true, Bool.and_eq_true,
      decide_eq_true_eq] at h
    simp only [isLowerAlnum, Bool.or_eq_true, Bool.and_eq_true, decide_eq_true_eq]
    rcases h with (h1 | h2) | h3
    · exact Or.inl h1
    · exact absurd (by
        simp only [Bool.and_eq_true, decide_eq_true_eq]
        exact h2) hu
    · exact Or.inr h3

theorem mem_subNonAlnumAux (l : Str) :
    ∀ (b : Bool) (c : Char), c ∈ subNonAlnumAux b l →
      c = '-' ∨ (isAsciiAlnum c = true ∧ c ∈ l) := by
  induction l with
  | nil =>
    intro b c hc
    simp [subNonAlnumAux] at hc
  | cons x xs ih =>
    intro b c hc
    by_cases hx : isAsciiAlnum x = true
    · simp only [subNonAlnumAux, if_pos hx] at hc
      rcases List.mem_cons.mp hc with h | h
      · exact Or.inr ⟨h ▸ hx, h ▸ List.mem_cons_self x xs⟩
      · rcases ih false c h with h' | ⟨ha, hm⟩
        · exact Or.inl h'
        · exact Or.inr ⟨ha, List.mem_cons_of_mem _ hm⟩
    · simp only [subNonAlnumAux, if_neg hx] at hc
      by_cases hb : b
      · rw [if_pos hb] at hc
        rcases ih true c hc with h' | ⟨ha, hm⟩
        · exact Or.inl h'
        · exact Or.inr ⟨ha, List.mem_cons_of_mem _ hm⟩
      · rw [if_neg hb] at hc
        rcases List.mem_cons.mp hc with h | h
        · exact Or.inl h
        · rcases ih true c h with h' | ⟨ha, hm⟩
          · exact Or.inl h'
          · exact Or.inr ⟨ha, List.mem_cons_of_mem _ hm⟩

theorem head?_dropWhile_not (p : Char → Bool) (l : Str) (c : Char)
    (h : (l.dropWhile p).head? = some c) : p c = false := by
  induction l with
  | nil => simp at h
  | cons x xs ih =>
    rw [List.dropWhile_cons] at h
    by_cases hx : p x = true
    · rw [if_pos hx] at h
      exact ih h
    · rw [if_neg hx] at h
      simp only [List.head?_cons, Option.some.injEq] at h
      subst h
      exact Bool.not_eq_true _ ▸ hx

theorem mem_rstripP (p : Char → Bool) (l : Str) (c : Char)
    (h : c ∈ rstripP p l) : c ∈ l := by
  induction l with
  | nil => simpa [rstripP] using h
  | cons x xs ih =>
    simp only [rstripP] at h
    split_ifs at h
    · simp at h
    · rcases List.mem_singleton.mp h with h
      exact h ▸ List.mem_cons_self x xs
    · rcases List.mem_cons.mp h with h | h
      · exact h ▸ List.mem_cons_self x xs
      · exact List.mem_cons_of_mem _ (ih h)

theorem head?_rstripP (p : Char → Bool) (l : Str) (c : Char)
    (h : (rstripP p l).head? = some c) : l.head? = some c := by
  cases l with
  | nil => simp [rstripP] at h
  | cons x xs =>
    simp only [rstripP] at h
    split_ifs at h
    · simp at h
    · simpa using h
    · simpa using h

theorem getLast?_rstripP_not (p : Char → Bool) (l : Str) :
    ∀ c, (rstripP p l).getLast? = some c → p c = false := by
  induction l with
  | nil => simp [rstripP]
  | cons x xs ih =>
    intro c h
    simp only [rstripP] at h
    split_ifs at h with h1 h2
    · simp at h
    · rw [List.getLast?_singleton] at h
      rcases Option.some.injEq .. |>.mp h with h
      subst h
      exact Bool.not_eq_true _ ▸ h2
    · obtain ⟨y, ys, hr⟩ := List.exists_cons_of_ne_nil h1
      rw [hr, List.getLast?_cons_cons, ← hr] at h
      exact ih c h

theorem mem_stripP (p : Char → Bool) (l : Str) (c : Char)
    (h : c ∈ stripP p l) : c ∈ l :=
  (List.dropWhile_sublist p).subset (mem_rstripP p _ c h)

theorem head?_stripP_not (p : Char → Bool) (l : Str) (c : Char)
    (h : (stripP p l).head? = some c) : p c = false :=
  head?_dropWhile_not p l c (head?_rstripP p _ c h)

theorem getLast?_stripP_not (p : Char → Bool) (l : Str) (c : Char)
    (h : (stripP p l).getLast? = some c) : p c = false :=
  getLast?_rstripP_not p _ c h

namespace App

/-- The normalized slug base is well-formed: nonempty, lowercase
alphanumerics and hyphens only, no hyphen at either end. -/
theorem slugNormalize_good (base : Str) : GoodSlug (slugNormalize base) := by
  unfold slugNormalize
  by_cases hs : stripP (fun c => c = '-')
      (subNonAlnum ((stripP pyIsSpace base).map pyLower)) = []
  · rw [hs]
    show GoodSlug ("menu-item".data)
    unfold GoodSlug
    refine ⟨by decide, by decide, by decide, by decide⟩
  · rw [if_neg hs]
    refine ⟨hs, ?_, ?_, ?_⟩
    · intro c hc
      have hmem := mem_stripP _ _ _ hc
      rcases mem_subNonAlnumAux _ false c hmem with h | ⟨ha, hm⟩
      · exact Or.inr h
      · rcases List.mem_map.mp hm with ⟨d, _, hd⟩
        exact Or.inl (hd ▸ pyLower_alnum d (hd ▸ ha))
    · intro hh
      rcases Option.ne_none_iff_exists'.mp
        (by simp [hh] : (stripP (fun c => c = '-')
          (subNonAlnum ((stripP pyIsSpace base).map pyLower))).head? ≠ none)
        with ⟨c, hc⟩
      rw [hc] at hh
      rcases Option.some.injEq .. |>.mp hh with rfl
      have := head?_stripP_not _ _ _ hc
      simp at this
    · intro hh
      rcases Option.ne_none_iff_exists'.mp
        (by simp [hh] : (stripP (fun c => c = '-')
          (subNonAlnum ((stripP pyIsSpace base).map pyLower))).getLast? ≠ none)
        with ⟨c, hc⟩
      rw [hc] at hh
      rcases Option.some.injEq .. |>.mp hh with rfl
      have := getLast?_stripP_not _ _ _ hc
      simp at this

/-- C3: every candidate the slug generator can try — the normalized
base for suffix 1, `slug-N` for each later suffix — is nonempty,
contains only lowercase ASCII alphanumerics and hyphens, and has no
leading or trailing hyphen. -/
theorem slug_candidates_good (base : Str) (n : Nat) :
    GoodSlug (slugCandidate (slugNormalize base) (n + 1)) := by
  obtain ⟨hne, hchars, hhead, hlast⟩ := slugNormalize_good base
  unfold slugCandidate
  by_cases h1 : n + 1 = 1
  · rw [if_pos h1]
    exact ⟨hne, hchars, hhead, hlast⟩
  · rw [if_neg h1]
    have hd : natToStr (n + 1) ≠ [] := natToDigits_ne_nil _
    refine ⟨by simp [hne], ?_, ?_, ?_⟩
    · intro c hc
      rcases List.mem_append.mp hc with hc | hc
      · rcases List.mem_append.mp hc with hc | hc
        · exact hchars c hc
        · exact Or.inr (List.mem_singleton.mp hc)
      · obtain ⟨hlo, hhi⟩ := mem_natToDigits_isDigit (n + 1) c hc
        refine Or.inl ?_
        simp only [isLowerAlnum, Bool.or_eq_true, Bool.and_eq_true,
          decide_eq_true_eq]
        exact Or.inr ⟨hlo, hhi⟩
    · rw [List.head?_append_of_ne_nil _ (by simp [hne]),
        List.head?_append_of_ne_nil _ hne]
      exact hhead
    · rw [List.getLast?_append]
      obtain ⟨d, hd2⟩ : ∃ d, (natToStr (n + 1)).getLast? = some d := by
        cases hq : (natToStr (n + 1)).getLast? with
        | none => exact absurd (List.getLast?_eq_none_iff.mp hq) hd
        | some d => exact ⟨d, rfl⟩
      rw [hd2]
      intro hcon
      rcases Option.some.injEq .. |>.mp hcon with rfl
      obtain ⟨hlo, _⟩ := mem_natToDigits_isDigit (n + 1) '-'
        (List.mem_of_mem_getLast? hd2)
      exact absurd ((charLe_iff _ _).mp hlo) (by decide)

end App

/- ### Slug generator termination and freshness (for C4) -/

namespace App

/-- Distinct suffixes give distinct candidates. -/
theorem slugCandidate_inj (slug : Str) {m n : Nat} (hm : 1 ≤ m) (hn : 1 ≤ n)
    (h : slugCandidate slug m = slugCandidate slug n) : m = n := by
  unfold slugCandidate at h
  by_cases h1 : m = 1 <;> by_cases h2 : n = 1
  · omega
  · rw [if_pos h1, if_neg h2] at h
    have hlen := congrArg List.length h
    have hd : 0 < (natToStr n).length :=
      List.length_pos.mpr (natToDigits_ne_nil n)
    simp only [List.length_append, List.length_singleton] at hlen
    omega
  · rw [if_neg h1, if_pos h2] at h
    have hlen := congrArg List.length h
    have hd : 0 < (natToStr m).length :=
      List.length_pos.mpr (natToDigits_ne_nil m)
    simp only [List.length_append, List.length_singleton] at hlen
    omega
  · rw [if_neg h1, if_neg h2] at h
    have := List.append_cancel_left h
    exact natToDigits_injective this

/-- If some candidate within the fuel window is free, the collision
loop returns a result. -/
theorem genSlugAux_isSome (items : List MenuItem) (cid : Option Nat)
    (slug : Str) :
    ∀ (fuel suffix : Nat),
      (∃ j, j < fuel ∧ findBySlug items (slugCandidate slug (suffix + j)) = none) →
      (genSlugAux items cid slug suffix fuel).isSome := by
  intro fuel
  induction fuel with
  | zero =>
    intro suffix ⟨j, hj, _⟩
    omega
  | succ f ih =>
    intro suffix ⟨j, hj, hfree⟩
    simp only [genSlugAux]
    cases hfind : findBySlug items (slugCandidate slug suffix) with
    | none => simp
    | some ex =>
      by_cases hcid : cid = some ex.id
      · simp [hcid]
      · simp only [hcid, if_neg, ite_false]
        apply ih
        have hj0 : j ≠ 0 := by
          intro h0
          subst h0
          rw [Nat.add_zero] at hfree
          rw [hfree] at hfind
          exact Option.noConfusion hfind
        exact ⟨j - 1, by omega, by
          rw [show suffix + 1 + (j - 1) = suffix + j by omega]
          exact hfree⟩

/-- Pigeonhole: among the first `items.length + 2` candidates one slug
is unused — there are more distinct candidates than stored slugs. -/
theorem exists_free_candidate (items : List MenuItem) (slug : Str) :
    ∃ j, j < items.length + 2
      ∧ findBySlug items (slugCandidate slug (1 + j)) = none := by
  by_contra hcon
  push_neg at hcon
  have hsub : ∀ j, j < items.length + 2 →
      slugCandidate slug (1 + j) ∈ items.map (fun it => it.slug) := by
    intro j hj
    cases hfind : findBySlug items (slugCandidate slug (1 + j)) with
    | none => exact absurd hfind (hcon j hj)
    | some ex =>
      have hmem := List.mem_of_find?_eq_some hfind
      have hpred := List.find?_some hfind
      have hex : ex.slug = slugCandidate slug (1 + j) := by simpa using hpred
      exact hex ▸ List.mem_map_of_mem _ hmem
  have hnodup : ((List.range (items.length + 2)).map
      (fun j => slugCandidate slug (1 + j))).Nodup := by
    refine (List.nodup_range _).map ?_
    intro a b hab
    have := slugCandidate_inj slug (by omega) (by omega) hab
    omega
  have hsubL : (List.range (items.length + 2)).map
      (fun j => slugCandidate slug (1 + j)) ⊆ items.map (fun it => it.slug) := by
    intro x hx
    rcases List.mem_map.mp hx with ⟨j, hj, rfl⟩
    exact hsub j (List.mem_range.mp hj)
  have hlen : ((List.range (items.length + 2)).map
      (fun j => slugCandidate slug (1 + j))).length
      ≤ (items.map (fun it => it.slug)).length := by
    calc ((List.range (items.length + 2)).map
        (fun j => slugCandidate slug (1 + j))).length
        = ((List.range (items.length + 2)).map
            (fun j => slugCandidate slug (1 + j))).toFinset.card :=
          (List.toFinset_card_of_nodup hnodup).symm
      _ ≤ (items.map (fun it => it.slug)).toFinset.card :=
          Finset.card_le_card (fun x hx =>
            List.mem_toFinset.mpr (hsubL (List.mem_toFinset.mp hx)))
      _ ≤ (items.map (fun it => it.slug)).length := List.toFinset_card_le _
  simp only [List.length_map, List.length_range] at hlen
  omega

/-- Whatever the collision loop returns is either a slug no stored item
carries, or the slug of the first item carrying it, which is the item
being updated. -/
theorem genSlugAux_spec (items : List MenuItem) (cid : Option Nat) (slug : Str) :
    ∀ (fuel suffix : Nat) (r : Str),
      genSlugAux items cid slug suffix fuel = some r →
      findBySlug items r = none
        ∨ ∃ ex, findBySlug items r = some ex ∧ cid = some ex.id := by
  intro fuel
  induction fuel with
  | zero =>
    intro suffix r h
    simp [genSlugAux] at h
  | succ f ih =>
    intro suffix r h
    simp only [genSlugAux] at h
    split at h
    · rename_i hfind
      simp only [Option.some.injEq] at h
      subst h
      exact Or.inl hfind
    · rename_i ex hfind
      by_cases hcid : cid = some ex.id
      · rw [if_pos hcid] at h
        simp only [Option.some.injEq] at h
        subst h
        exact Or.inr ⟨ex, hfind, hcid⟩
      · rw [if_neg hcid] at h
        exact ih (suffix + 1) r h

/-- The generator always returns within its fuel bound, and its result
satisfies the freshness property of the loop's exit condition. -/
theorem generateUniqueSlug_spec (items : List MenuItem) (cid : Option Nat)
    (base : Str) :
    genSlugAux items cid (slugNormalize base) 1 (items.length + 2)
      = some (generateUniqueSlug items cid base)
    ∧ (findBySlug items (generateUniqueSlug items cid base) = none
       ∨ ∃ ex, findBySlug items (generateUniqueSlug items cid base) = some ex
           ∧ cid = some ex.id) := by
  have hsome : (genSlugAux items cid (slugNormalize base) 1
      (items.length + 2)).isSome := by
    apply genSlugAux_isSome
    obtain ⟨j, hj, hf⟩ := exists_free_candidate items (slugNormalize base)
    exact ⟨j, hj, hf⟩
  obtain ⟨r, hr⟩ := Option.isSome_iff_exists.mp hsome
  have hget : generateUniqueSlug items cid base = r := by
    simp [generateUniqueSlug, hr]
  constructor
  · rw [hget]
    exact hr
  · rw [hget]
    exact genSlugAux_spec items cid _ _ _ r hr

/-- On create (no current id) the generated slug differs from every
stored slug. -/
theorem generateUniqueSlug_fresh (items : List MenuItem) (base : Str) :
    ∀ it ∈ items, it.slug ≠ generateUniqueSlug items none base := by
  rcases (generateUniqueSlug_spec items none base).2 with hfind | ⟨ex, _, hcid⟩
  · intro it hit heq
    have := List.find?_eq_none.mp hfind it hit
    simp [heq] at this
  · exact absurd hcid (by simp)

end App

namespace App

/-- Replacing the (unique) item with the given id by a replacement
whose slug collides with no other item keeps the slug list
duplicate-free. -/
theorem nodup_map_update (items : List MenuItem) (item item' : MenuItem)
    (Hslug : (items.map (fun it => it.slug)).Nodup)
    (Hid : (items.map (fun it => it.id)).Nodup)
    (Hmem : item ∈ items)
    (hfresh : ∀ it ∈ items, it.slug = item'.slug → it.id = item.id) :
    ((items.map fun it => if it.id = item.id then item' else it).map
      (fun it => it.slug)).Nodup := by
  induction items with
  | nil => simp
  | cons x xs ih =>
    rcases List.nodup_cons.mp Hslug with ⟨hxslug, hslugs⟩
    rcases List.nodup_cons.mp Hid with ⟨hxid, hids⟩
    by_cases hx : x.id = item.id
    · have hxs : ∀ it ∈ xs, ¬(it.id = item.id) := by
        intro it hit he
        apply hxid
        have h2 : x.id = it.id := hx.trans he.symm
        show x.id ∈ xs.map (fun it => it.id)
        rw [h2]
        exact List.mem_map_of_mem _ hit
      have hmapxs : xs.map (fun it => if it.id = item.id then item' else it)
          = xs := by
        rw [List.map_congr_left (fun a ha => if_neg (hxs a ha))]
        exact List.map_id _
      rw [List.map_cons, if_pos hx, hmapxs, List.map_cons]
      refine List.nodup_cons.mpr ⟨?_, hslugs⟩
      intro hmm
      rcases List.mem_map.mp hmm with ⟨it, hit, hsl⟩
      exact hxs it hit (hfresh it (List.mem_cons_of_mem _ hit) hsl)
    · have hmem' : item ∈ xs := by
        rcases List.mem_cons.mp Hmem with h | h
        · exact absurd (h ▸ rfl : x.id = item.id) hx
        · exact h
      rw [List.map_cons, if_neg hx, List.map_cons]
      refine List.nodup_cons.mpr
        ⟨?_, ih hslugs hids hmem'
          (fun it hit hsl => hfresh it (List.mem_cons_of_mem _ hit) hsl)⟩
      intro hmm
      rcases List.mem_map.mp hmm with ⟨y, hy, hsl⟩
      rcases List.mem_map.mp hy with ⟨z, hz, hzy⟩
      by_cases hzid : z.id = item.id
      · rw [if_pos hzid] at hzy
        subst hzy
        exact hx (hfresh x (List.mem_cons_self _ _) hsl.symm)
      · rw [if_neg hzid] at hzy
        subst hzy
        apply hxslug
        show x.slug ∈ xs.map (fun it => it.slug)
        rw [← hsl]
        exact List.mem_map_of_mem _ hz

end App

namespace App

/-- C4 counterexample: in a state whose slugs are all distinct (one
item with the empty slug — itself only reachable through this same
code path — and one with slug `x`), updating the second item with an
explicit empty-string slug bypasses regeneration (`if updates["slug"]`
is falsy for `""`) and the `setattr` loop copies it verbatim, so the
updated item's slug collides with the first item's and uniqueness is
broken; the claim that `update_menu_item` always produces a slug
different from every other item's is therefore false. -/
theorem slug_uniqueness_update_cex :
    (((⟨[⟨1, [], "A".data, 0, 100, true, none, ⟨2024, 1, 1, 0, 0, 0, 0⟩,
          ⟨2024, 1, 1, 0, 0, 0, 0⟩⟩,
        ⟨2, "x".data, "X".data, 0, 100, true, none, ⟨2024, 1, 1, 0, 0, 0, 0⟩,
          ⟨2024, 1, 1, 0, 0, 0, 0⟩⟩], [], 3, 1⟩ : DBState).menuItems.map
        (fun it => it.slug)).Nodup)
    ∧ (((⟨[⟨1, [], "A".data, 0, 100, true, none, ⟨2024, 1, 1, 0, 0, 0, 0⟩,
          ⟨2024, 1, 1, 0, 0, 0, 0⟩⟩,
        ⟨2, "x".data, "X".data, 0, 100, true, none, ⟨2024, 1, 1, 0, 0, 0, 0⟩,
          ⟨2024, 1, 1, 0, 0, 0, 0⟩⟩], [], 3, 1⟩ : DBState).menuItems.map
        (fun it => it.id)).Nodup)
    ∧ (update_menu_item
        ⟨[⟨1, [], "A".data, 0, 100, true, none, ⟨2024, 1, 1, 0, 0, 0, 0⟩,
            ⟨2024, 1, 1, 0, 0, 0, 0⟩⟩,
          ⟨2, "x".data, "X".data, 0, 100, true, none, ⟨2024, 1, 1, 0, 0, 0, 0⟩,
            ⟨2024, 1, 1, 0, 0, 0, 0⟩⟩], [], 3, 1⟩
        ⟨2024, 1, 2, 0, 0, 0, 0⟩
        ⟨2, "x".data, "X".data, 0, 100, true, none, ⟨2024, 1, 1, 0, 0, 0, 0⟩,
          ⟨2024, 1, 1, 0, 0, 0, 0⟩⟩
        ⟨none, some (some []), none, none, none⟩).1.slug = []
    ∧ ¬ (((update_menu_item
        ⟨[⟨1, [], "A".data, 0, 100, true, none, ⟨2024, 1, 1, 0, 0, 0, 0⟩,
            ⟨2024, 1, 1, 0, 0, 0, 0⟩⟩,
          ⟨2, "x".data, "X".data, 0, 100, true, none, ⟨2024, 1, 1, 0, 0, 0, 0⟩,
            ⟨2024, 1, 1, 0, 0, 0, 0⟩⟩], [], 3, 1⟩
        ⟨2024, 1, 2, 0, 0, 0, 0⟩
        ⟨2, "x".data, "X".data, 0, 100, true, none, ⟨2024, 1, 1, 0, 0, 0, 0⟩,
          ⟨2024, 1, 1, 0, 0, 0, 0⟩⟩
        ⟨none, some (some []), none, none, none⟩).2.menuItems.map
        (fun it => it.slug)).Nodup) := by
  refine ⟨by decide, by decide, by decide, by decide⟩

end App

namespace App

/-- C4 amended: in a state with pairwise-distinct slugs (and distinct
primary keys), `create_menu_item` always produces a slug different
from every stored one, and `update_menu_item` preserves slug
uniqueness whenever the update does not carry an explicit empty-string
slug (that one case bypasses regeneration and is copied verbatim);
moreover two consecutive creates — in particular with names
normalizing to the same slug — always yield distinct slugs. -/
theorem slug_uniqueness_preserved (st : DBState) (now : DateTime) :
    (∀ data : MenuCreateData,
      SlugsNodup st → SlugsNodup (create_menu_item st now data).2)
    ∧ (∀ (item : MenuItem) (upd : MenuUpdateData),
        SlugsNodup st → IdsNodup st → item ∈ st.menuItems →
        upd.slug ≠ some (some []) →
        SlugsNodup (update_menu_item st now item upd).2)
    ∧ (∀ (now2 : DateTime) (d1 d2 : MenuCreateData),
        (create_menu_item (create_menu_item st now d1).2 now2 d2).1.slug
          ≠ (create_menu_item st now d1).1.slug) := by
  refine ⟨?_, ?_, ?_⟩
  · intro data hn
    unfold SlugsNodup at hn ⊢
    show ((st.menuItems ++ [(create_menu_item st now data).1]).map
      (fun it => it.slug)).Nodup
    rw [List.map_append]
    rw [List.nodup_append]
    refine ⟨hn, List.nodup_singleton _, ?_⟩
    intro a ha hb
    rcases List.mem_map.mp ha with ⟨it, hit, rfl⟩
    rcases List.mem_singleton.mp (by simpa using hb) with h
    exact generateUniqueSlug_fresh st.menuItems _ it hit h
  · intro item upd hslug hid hmem hne
    unfold SlugsNodup at hslug ⊢
    unfold IdsNodup at hid
    cases hu : upd.slug with
    | none =>
      show ((st.menuItems.map fun it =>
        if it.id = item.id then
          (update_menu_item st now item upd).1 else it).map
          (fun it => it.slug)).Nodup
      refine nodup_map_update st.menuItems item _ hslug hid hmem ?_
      intro it hit hsl
      have hkeep : (update_menu_item st now item upd).1.slug = item.slug := by
        simp [update_menu_item, hu, applyField]
      rw [hkeep] at hsl
      have := List.inj_on_of_nodup_map hslug hit hmem hsl
      rw [this]
    | some so =>
      cases so with
      | none =>
        show ((st.menuItems.map fun it =>
          if it.id = item.id then
            (update_menu_item st now item upd).1 else it).map
            (fun it => it.slug)).Nodup
        refine nodup_map_update st.menuItems item _ hslug hid hmem ?_
        intro it hit hsl
        have hkeep : (update_menu_item st now item upd).1.slug = item.slug := by
          simp [update_menu_item, hu, applyField]
        rw [hkeep] at hsl
        have := List.inj_on_of_nodup_map hslug hit hmem hsl
        rw [this]
      | some s =>
        have hs : s ≠ [] := by
          intro h0
          exact hne (by rw [hu, h0])
        show ((st.menuItems.map fun it =>
          if it.id = item.id then
            (update_menu_item st now item upd).1 else it).map
            (fun it => it.slug)).Nodup
        refine nodup_map_update st.menuItems item _ hslug hid hmem ?_
        intro it hit hsl
        have hregen : (update_menu_item st now item upd).1.slug
            = generateUniqueSlug st.menuItems (some item.id) s := by
          simp [update_menu_item, hu, hs, applyField]
        rw [hregen] at hsl
        rcases (generateUniqueSlug_spec st.menuItems (some item.id) s).2 with
          hfind | ⟨ex, hfind, hcid⟩
        · have := List.find?_eq_none.mp hfind it hit
          simp [hsl] at this
        · have hexmem := List.mem_of_find?_eq_some hfind
          have hexslug : ex.slug = generateUniqueSlug st.menuItems
              (some item.id) s := by
            simpa using List.find?_some hfind
          have heq : it = ex :=
            List.inj_on_of_nodup_map hslug hit hexmem (hsl.trans hexslug.symm)
          have hexid : ex.id = item.id := by
            rcases Option.some.injEq .. |>.mp hcid with h
            exact h.symm
          rw [heq, hexid]
  · intro now2 d1 d2
    have hmem : (create_menu_item st now d1).1
        ∈ (create_menu_item st now d1).2.menuItems := by
      show (create_menu_item st now d1).1
        ∈ st.menuItems ++ [(create_menu_item st now d1).1]
      exact List.mem_append_right _ (List.mem_singleton_self _)
    intro heq
    exact generateUniqueSlug_fresh (create_menu_item st now d1).2.menuItems _
      (create_menu_item st now d1).1 hmem heq.symm

end App

namespace App

/-- Witness for the amended C4: creating an item in an empty state
preserves slug uniqueness. -/
theorem slug_uniqueness_preserved_witness :
    SlugsNodup ⟨[], [], 1, 1⟩
    ∧ SlugsNodup (create_menu_item ⟨[], [], 1, 1⟩ ⟨2024, 1, 1, 0, 0, 0, 0⟩
        { name := "Pork Bun".data, default_price := 35 }).2 :=
  ⟨by unfold SlugsNodup; decide,
   (slug_uniqueness_preserved ⟨[], [], 1, 1⟩ ⟨2024, 1, 1, 0, 0, 0, 0⟩).1
     { name := "Pork Bun".data, default_price := 35 }
     (by unfold SlugsNodup; decide)⟩

end App
